import Mathlib

/-!
Shallow embedding of the kanimiso shogi board-representation core
(src/square.rs, src/bitboard.rs, src/piece.rs).

Machine integers are modelled as `Nat`: `u8` and `u128` values are
naturals below `2 ^ 8` and `2 ^ 128` respectively, and the one place
where wraparound matters (the `Not` operator on `u128`, which flips all
128 bits) is modelled explicitly as XOR with `2 ^ 128 - 1`.
Rust panics (the `assert!` in `Square::from_coord` and the catch-all
arms in `From<u8> for PieceKind` / `From<u8> for Piece`) are modelled as
`Except`/`Option` failure values.
-/

/-- Failure conditions of the fallible constructors: out-of-range
coordinates for a square, and out-of-range integer encodings for a
piece kind or a piece. -/
inductive KError where
  | InvalidCoordinate
  | InvalidPieceKind
  | InvalidPiece
deriving DecidableEq, Repr

/-- Square(u8): a square on the 9x9 board, wrapping the linear index. -/
structure Square where
  val : Nat
deriving DecidableEq, Repr

/-- Square::from_coord(file, rank): asserts file < 9 && rank < 9 (panic
modelled as an InvalidCoordinate error), then returns Square(file * 9 + rank). -/
def Square.from_coord (file rank : Nat) : Except KError Square :=
  if file < 9 ∧ rank < 9 then Except.ok ⟨file * 9 + rank⟩
  else Except.error KError.InvalidCoordinate

/-- Square::file(): self.0 / 9. -/
def Square.file (s : Square) : Nat := s.val / 9

/-- Square::rank(): self.0 % 9. -/
def Square.rank (s : Square) : Nat := s.val % 9

/-- Square::index(): self.0 as usize. -/
def Square.index (s : Square) : Nat := s.val

/-- Bitboard(u128): one bit per square, squares indexed 0..81. -/
structure Bitboard where
  val : Nat
deriving DecidableEq, Repr

/-- Bitboard::count(): self.0.count_ones(), the population count of the
128 bits of the wrapped integer. -/
def Bitboard.count (b : Bitboard) : Nat :=
  ((List.range 128).filter (fun i => b.val.testBit i)).length

/-- Bitboard::is_empty(): self.0 == 0. -/
def Bitboard.is_empty (b : Bitboard) : Bool := b.val == 0

/-- Bitboard::is_any(): self.0 != 0. -/
def Bitboard.is_any (b : Bitboard) : Bool := b.val != 0

/-- BitAnd for &Bitboard: Bitboard(self.0 & rhs.0). -/
def Bitboard.band (a b : Bitboard) : Bitboard := ⟨a.val &&& b.val⟩

/-- BitOr for &Bitboard: Bitboard(self.0 | rhs.0). -/
def Bitboard.bor (a b : Bitboard) : Bitboard := ⟨a.val ||| b.val⟩

/-- BitXor for &Bitboard: Bitboard(self.0 ^ rhs.0). -/
def Bitboard.bxor (a b : Bitboard) : Bitboard := ⟨a.val ^^^ b.val⟩

/-- Not for &Bitboard: Bitboard(!self.0). On u128 the `!` operator flips
all 128 bits, which on values below 2^128 is XOR with 2^128 - 1. -/
def Bitboard.bnot (a : Bitboard) : Bitboard := ⟨a.val ^^^ (2 ^ 128 - 1)⟩

/-- Bitboard::EMPTY = Bitboard(0). -/
def Bitboard.EMPTY : Bitboard := ⟨0⟩

/-- Bitboard::FULL = Bitboard((1 << 81) - 1). -/
def Bitboard.FULL : Bitboard := ⟨(1 <<< 81) - 1⟩

/-- Bitboard::FILE_1 = Bitboard(0x1FF << 9 * 0). -/
def Bitboard.FILE_1 : Bitboard := ⟨0x1FF <<< (9 * 0)⟩

/-- Bitboard::FILE_2 = Bitboard(0x1FF << 9 * 1). -/
def Bitboard.FILE_2 : Bitboard := ⟨0x1FF <<< (9 * 1)⟩

/-- Bitboard::FILE_3 = Bitboard(0x1FF << 9 * 2). -/
def Bitboard.FILE_3 : Bitboard := ⟨0x1FF <<< (9 * 2)⟩

/-- Bitboard::FILE_4 = Bitboard(0x1FF << 9 * 3). -/
def Bitboard.FILE_4 : Bitboard := ⟨0x1FF <<< (9 * 3)⟩

/-- Bitboard::FILE_5 = Bitboard(0x1FF << 9 * 4). -/
def Bitboard.FILE_5 : Bitboard := ⟨0x1FF <<< (9 * 4)⟩

/-- Bitboard::FILE_6 = Bitboard(0x1FF << 9 * 5). -/
def Bitboard.FILE_6 : Bitboard := ⟨0x1FF <<< (9 * 5)⟩

/-- Bitboard::FILE_7 = Bitboard(0x1FF << 9 * 6). -/
def Bitboard.FILE_7 : Bitboard := ⟨0x1FF <<< (9 * 6)⟩

/-- Bitboard::FILE_8 = Bitboard(0x1FF << 9 * 7). -/
def Bitboard.FILE_8 : Bitboard := ⟨0x1FF <<< (9 * 7)⟩

/-- Bitboard::FILE_9 = Bitboard(0x1FF << 9 * 8). -/
def Bitboard.FILE_9 : Bitboard := ⟨0x1FF <<< (9 * 8)⟩

/-- Bitboard::RANK_1 = Bitboard(0x1008040201008040201 << 0). -/
def Bitboard.RANK_1 : Bitboard := ⟨0x1008040201008040201 <<< 0⟩

/-- Bitboard::RANK_2 = Bitboard(0x1008040201008040201 << 1). -/
def Bitboard.RANK_2 : Bitboard := ⟨0x1008040201008040201 <<< 1⟩

/-- Bitboard::RANK_3 = Bitboard(0x1008040201008040201 << 2). -/
def Bitboard.RANK_3 : Bitboard := ⟨0x1008040201008040201 <<< 2⟩

/-- Bitboard::RANK_4 = Bitboard(0x1008040201008040201 << 3). -/
def Bitboard.RANK_4 : Bitboard := ⟨0x1008040201008040201 <<< 3⟩

/-- Bitboard::RANK_5 = Bitboard(0x1008040201008040201 << 4). -/
def Bitboard.RANK_5 : Bitboard := ⟨0x1008040201008040201 <<< 4⟩

/-- Bitboard::RANK_6 = Bitboard(0x1008040201008040201 << 5). -/
def Bitboard.RANK_6 : Bitboard := ⟨0x1008040201008040201 <<< 5⟩

/-- Bitboard::RANK_7 = Bitboard(0x1008040201008040201 << 6). -/
def Bitboard.RANK_7 : Bitboard := ⟨0x1008040201008040201 <<< 6⟩

/-- Bitboard::RANK_8 = Bitboard(0x1008040201008040201 << 7). -/
def Bitboard.RANK_8 : Bitboard := ⟨0x1008040201008040201 <<< 7⟩

/-- Bitboard::RANK_9 = Bitboard(0x1008040201008040201 << 8). -/
def Bitboard.RANK_9 : Bitboard := ⟨0x1008040201008040201 <<< 8⟩

/-- Bitboard::SQUARES: the source lists the 81 entries
Bitboard(1 << 0), Bitboard(1 << 1), ..., Bitboard(1 << 80) literally;
written here as a map over the 81 indices. -/
def Bitboard.SQUARES : List Bitboard :=
  (List.range 81).map (fun i => ⟨1 <<< i⟩)

/-- From Square for Bitboard: Bitboard::SQUARES[sq.index()]. Rust array
indexing would panic for an index at or above 81, which cannot happen
for a square built by from_coord; the out-of-bounds case is modelled
with the EMPTY default of getD. -/
def Bitboard.ofSquare (sq : Square) : Bitboard :=
  Bitboard.SQUARES.getD sq.index Bitboard.EMPTY

/-- Membership test used by Display for Bitboard:
self.0 & (1 << square.index()) != 0, with the position passed as a raw
index. -/
def Bitboard.mem (b : Bitboard) (i : Nat) : Bool :=
  b.val &&& (1 <<< i) != 0

/-- One line of the Display for Bitboard output: files 8 down to 0 of
the given rank, a '1' character when the square is a member and '0'
otherwise. The error branch is unreachable because both loop variables
stay below 9; it is marked with a distinct '?' character. -/
def Bitboard.fmtLine (b : Bitboard) (rank : Nat) : List Char :=
  (List.range 9).reverse.map (fun file =>
    match Square.from_coord file rank with
    | Except.ok square => if b.val &&& (1 <<< square.index) != 0 then '1' else '0'
    | Except.error _ => '?')

/-- Display for Bitboard: for rank in 0..9, print the line of that rank
followed by a line break. -/
def Bitboard.fmt (b : Bitboard) : String :=
  String.join ((List.range 9).map (fun rank =>
    String.mk (b.fmtLine rank ++ ['\n'])))

/-- Helper collecting the nine FILE constants in order FILE_1..FILE_9
(so position i holds the mask of 0-based file i). -/
def Bitboard.files : List Bitboard :=
  [Bitboard.FILE_1, Bitboard.FILE_2, Bitboard.FILE_3, Bitboard.FILE_4,
   Bitboard.FILE_5, Bitboard.FILE_6, Bitboard.FILE_7, Bitboard.FILE_8,
   Bitboard.FILE_9]

/-- Helper collecting the nine RANK constants in order RANK_1..RANK_9
(so position r holds the mask of 0-based rank r). -/
def Bitboard.ranks : List Bitboard :=
  [Bitboard.RANK_1, Bitboard.RANK_2, Bitboard.RANK_3, Bitboard.RANK_4,
   Bitboard.RANK_5, Bitboard.RANK_6, Bitboard.RANK_7, Bitboard.RANK_8,
   Bitboard.RANK_9]

/-- Color: the two players' sides. -/
inductive Color where
  | Black
  | White
deriving DecidableEq, Repr

/-- PieceKind: 8 base kinds with discriminants 0..7 and 6 promoted
kinds formed by OR-ing the promotion mask 0x08 onto the base kind. -/
inductive PieceKind where
  | Pawn
  | Lance
  | Knight
  | Silver
  | Bishop
  | Rook
  | Gold
  | King
  | ProPawn
  | ProLance
  | ProKnight
  | ProSilver
  | Horse
  | Dragon
deriving DecidableEq, Repr

/-- Discriminant of a PieceKind as a u8 (the `as u8` cast): base kinds
0..7 in declaration order, promoted kinds base | 0x08 giving 8..13. -/
def PieceKind.toU8 : PieceKind → Nat
  | PieceKind.Pawn => 0
  | PieceKind.Lance => 1
  | PieceKind.Knight => 2
  | PieceKind.Silver => 3
  | PieceKind.Bishop => 4
  | PieceKind.Rook => 5
  | PieceKind.Gold => 6
  | PieceKind.King => 7
  | PieceKind.ProPawn => 8
  | PieceKind.ProLance => 9
  | PieceKind.ProKnight => 10
  | PieceKind.ProSilver => 11
  | PieceKind.Horse => 12
  | PieceKind.Dragon => 13

/-- Total lookup underlying From u8 for PieceKind: the match arms for
0..13, with none for every other value (where the source panics). -/
def PieceKind.ofNat? : Nat → Option PieceKind
  | 0 => some PieceKind.Pawn
  | 1 => some PieceKind.Lance
  | 2 => some PieceKind.Knight
  | 3 => some PieceKind.Silver
  | 4 => some PieceKind.Bishop
  | 5 => some PieceKind.Rook
  | 6 => some PieceKind.Gold
  | 7 => some PieceKind.King
  | 8 => some PieceKind.ProPawn
  | 9 => some PieceKind.ProLance
  | 10 => some PieceKind.ProKnight
  | 11 => some PieceKind.ProSilver
  | 12 => some PieceKind.Horse
  | 13 => some PieceKind.Dragon
  | _ => none

/-- From u8 for PieceKind, with the panic on values outside 0..=13
modelled as an InvalidPieceKind error. -/
def PieceKind.fromU8 (v : Nat) : Except KError PieceKind :=
  match PieceKind.ofNat? v with
  | some k => Except.ok k
  | none => Except.error KError.InvalidPieceKind

/-- PieceKind::is_promoted(): (*self as u8) & 0x08 != 0. -/
def PieceKind.is_promoted (k : PieceKind) : Bool :=
  k.toU8 &&& 8 != 0

/-- PieceKind::promote(): for the six promotable base kinds, look up
the kind encoded by (*self as u8) | 0x08 (always in 8..13, so the
From-u8 panic is unreachable); every other kind has no transition. -/
def PieceKind.promote (k : PieceKind) : Option PieceKind :=
  match k with
  | PieceKind.Pawn | PieceKind.Lance | PieceKind.Knight
  | PieceKind.Silver | PieceKind.Bishop | PieceKind.Rook =>
      PieceKind.ofNat? (k.toU8 ||| 8)
  | _ => none

/-- Piece: a colored piece; black pieces carry the kind discriminant
0..13, white pieces OR in the white mask 0x10 giving 16..29. -/
inductive Piece where
  | BPawn
  | BLance
  | BKnight
  | BSilver
  | BBishop
  | BRook
  | BGold
  | BKing
  | BProPawn
  | BProLance
  | BProKnight
  | BProSilver
  | BHorse
  | BDragon
  | WPawn
  | WLance
  | WKnight
  | WSilver
  | WBishop
  | WRook
  | WGold
  | WKing
  | WProPawn
  | WProLance
  | WProKnight
  | WProSilver
  | WHorse
  | WDragon
deriving DecidableEq, Repr

/-- Discriminant of a Piece as a u8: the kind discriminant, OR 0x10 for
white pieces. -/
def Piece.toU8 : Piece → Nat
  | Piece.BPawn => 0
  | Piece.BLance => 1
  | Piece.BKnight => 2
  | Piece.BSilver => 3
  | Piece.BBishop => 4
  | Piece.BRook => 5
  | Piece.BGold => 6
  | Piece.BKing => 7
  | Piece.BProPawn => 8
  | Piece.BProLance => 9
  | Piece.BProKnight => 10
  | Piece.BProSilver => 11
  | Piece.BHorse => 12
  | Piece.BDragon => 13
  | Piece.WPawn => 16
  | Piece.WLance => 17
  | Piece.WKnight => 18
  | Piece.WSilver => 19
  | Piece.WBishop => 20
  | Piece.WRook => 21
  | Piece.WGold => 22
  | Piece.WKing => 23
  | Piece.WProPawn => 24
  | Piece.WProLance => 25
  | Piece.WProKnight => 26
  | Piece.WProSilver => 27
  | Piece.WHorse => 28
  | Piece.WDragon => 29

/-- Total lookup underlying From u8 for Piece: the match arms for 0..13
and 16..29, with none for every other value (where the source panics). -/
def Piece.ofNat? : Nat → Option Piece
  | 0 => some Piece.BPawn
  | 1 => some Piece.BLance
  | 2 => some Piece.BKnight
  | 3 => some Piece.BSilver
  | 4 => some Piece.BBishop
  | 5 => some Piece.BRook
  | 6 => some Piece.BGold
  | 7 => some Piece.BKing
  | 8 => some Piece.BProPawn
  | 9 => some Piece.BProLance
  | 10 => some Piece.BProKnight
  | 11 => some Piece.BProSilver
  | 12 => some Piece.BHorse
  | 13 => some Piece.BDragon
  | 16 => some Piece.WPawn
  | 17 => some Piece.WLance
  | 18 => some Piece.WKnight
  | 19 => some Piece.WSilver
  | 20 => some Piece.WBishop
  | 21 => some Piece.WRook
  | 22 => some Piece.WGold
  | 23 => some Piece.WKing
  | 24 => some Piece.WProPawn
  | 25 => some Piece.WProLance
  | 26 => some Piece.WProKnight
  | 27 => some Piece.WProSilver
  | 28 => some Piece.WHorse
  | 29 => some Piece.WDragon
  | _ => none

/-- From u8 for Piece, with the panic on values outside 0..=13 and
16..=29 modelled as an InvalidPiece error. -/
def Piece.fromU8 (v : Nat) : Except KError Piece :=
  match Piece.ofNat? v with
  | some p => Except.ok p
  | none => Except.error KError.InvalidPiece

/-- Piece::new(color, piece_kind): the packed value piece_kind | mask,
mask 0 for Black and 0x10 for White; the looked-up value is always a
valid piece encoding, so the From-u8 panic is unreachable. -/
def Piece.new (color : Color) (piece_kind : PieceKind) : Option Piece :=
  Piece.ofNat? (piece_kind.toU8 |||
    (match color with | Color.Black => 0 | Color.White => 16))

/-- Piece::kind(): look up the kind encoded by (*self as u8) & 0x0F
(always in 0..13, so the From-u8 panic is unreachable). -/
def Piece.kind (p : Piece) : Option PieceKind :=
  PieceKind.ofNat? (p.toU8 &&& 15)

/-- Piece::is_black(): (*self as u8) & 0x10 == 0. -/
def Piece.is_black (p : Piece) : Bool :=
  p.toU8 &&& 16 == 0

/-- Piece::is_white(): (*self as u8) & 0x10 != 0. -/
def Piece.is_white (p : Piece) : Bool :=
  p.toU8 &&& 16 != 0

/-- Piece::color(): Black when is_black(), White otherwise. -/
def Piece.color (p : Piece) : Color :=
  if p.is_black then Color.Black else Color.White

/-- Piece::is_promoted(): (*self as u8) & 0x08 != 0. -/
def Piece.is_promoted (p : Piece) : Bool :=
  p.toU8 &&& 8 != 0

/-- Piece::promote(): self.kind().promote().map(new(self.color(), ...)),
threading the unreachable internal lookup failures through Option. -/
def Piece.promote (p : Piece) : Option Piece :=
  p.kind.bind (fun k => k.promote.bind (fun k2 => Piece.new p.color k2))

deriving instance DecidableEq for Except

deriving instance Fintype for Color

deriving instance Fintype for PieceKind

deriving instance Fintype for Piece

/-- The singleton board of a valid index v is the single bit 2 ^ v. -/
theorem Bitboard.ofSquare_val (v : Nat) (hv : v < 81) :
    Bitboard.ofSquare ⟨v⟩ = ⟨2 ^ v⟩ := by
  simp only [Bitboard.ofSquare, Bitboard.SQUARES, Square.index, List.getD_eq_getElem?_getD,
    List.getElem?_map, List.getElem?_range hv, Option.map_some', Option.getD_some,
    Nat.shiftLeft_eq, one_mul]

/-- Membership in the singleton board of a valid index v holds exactly
at position v. -/
theorem Bitboard.mem_ofSquare_iff (v j : Nat) (hv : v < 81) :
    ((Bitboard.ofSquare ⟨v⟩).mem j = true) ↔ j = v := by
  rw [Bitboard.ofSquare_val v hv]
  simp only [Bitboard.mem, Nat.shiftLeft_eq, one_mul, bne_iff_ne, ne_eq]
  rw [Nat.two_pow_and, Nat.testBit_two_pow]
  by_cases h : j = v
  · subst h
    simp
  · simp [h]

/-- C2: for every file and rank below 9, from_coord succeeds and its
result satisfies file() == file and rank() == rank; the map
(file, rank) to file * 9 + rank is injective on the 81 coordinate pairs
and reaches every index below 81. -/
theorem c2_square_coord_bijection :
    (∀ file, file < 9 → ∀ rank, rank < 9 →
      ∃ s : Square, Square.from_coord file rank = Except.ok s ∧
        s.file = file ∧ s.rank = rank ∧ s.index = file * 9 + rank ∧ s.index < 81) ∧
    (∀ f1, f1 < 9 → ∀ r1, r1 < 9 → ∀ f2, f2 < 9 → ∀ r2, r2 < 9 →
      f1 * 9 + r1 = f2 * 9 + r2 → f1 = f2 ∧ r1 = r2) ∧
    (∀ i, i < 81 → ∃ file rank, file < 9 ∧ rank < 9 ∧ file * 9 + rank = i) := by
  refine ⟨?_, ?_, ?_⟩
  · intro file hf rank hr
    refine ⟨⟨file * 9 + rank⟩, ?_, ?_, ?_, rfl, ?_⟩
    · simp [Square.from_coord, hf, hr]
    · show (file * 9 + rank) / 9 = file
      omega
    · show (file * 9 + rank) % 9 = rank
      omega
    · show file * 9 + rank < 81
      omega
  · intro f1 h1 r1 h2 f2 h3 r2 h4 h
    omega
  · intro i hi
    exact ⟨i / 9, i % 9, by omega, by omega, by omega⟩

/-- Witness for c2_square_coord_bijection at file 4, rank 7. -/
theorem c2_square_coord_bijection_witness :
    ∃ s : Square, Square.from_coord 4 7 = Except.ok s ∧
      s.file = 4 ∧ s.rank = 7 ∧ s.index = 4 * 9 + 7 ∧ s.index < 81 :=
  c2_square_coord_bijection.1 4 (by decide) 7 (by decide)

/-- C3: distinct FILE masks intersect to EMPTY and the nine FILE masks
union to FULL; likewise for the RANK masks. -/
theorem c3_file_rank_partition :
    (∀ i, i < 9 → ∀ j, j < 9 → i ≠ j →
      Bitboard.band (Bitboard.files.getD i Bitboard.EMPTY)
        (Bitboard.files.getD j Bitboard.EMPTY) = Bitboard.EMPTY) ∧
    Bitboard.files.foldl Bitboard.bor Bitboard.EMPTY = Bitboard.FULL ∧
    (∀ i, i < 9 → ∀ j, j < 9 → i ≠ j →
      Bitboard.band (Bitboard.ranks.getD i Bitboard.EMPTY)
        (Bitboard.ranks.getD j Bitboard.EMPTY) = Bitboard.EMPTY) ∧
    Bitboard.ranks.foldl Bitboard.bor Bitboard.EMPTY = Bitboard.FULL := by
  refine ⟨by decide, by decide, by decide, by decide⟩

/-- Witness for c3_file_rank_partition at files 0 and 5 and ranks 2 and 8. -/
theorem c3_file_rank_partition_witness :
    Bitboard.band (Bitboard.files.getD 0 Bitboard.EMPTY)
        (Bitboard.files.getD 5 Bitboard.EMPTY) = Bitboard.EMPTY ∧
    Bitboard.band (Bitboard.ranks.getD 2 Bitboard.EMPTY)
        (Bitboard.ranks.getD 8 Bitboard.EMPTY) = Bitboard.EMPTY :=
  ⟨c3_file_rank_partition.1 0 (by decide) 5 (by decide) (by decide),
   c3_file_rank_partition.2.2.1 2 (by decide) 8 (by decide) (by decide)⟩

/-- C4: the promotion table of PieceKind maps the six promotable base
kinds to their promoted forms and sends Gold, King, and every promoted
kind to none; Piece promotion follows the kind table, keeping the color
and taking the promoted kind, and is none exactly when the kind table
gives none. -/
theorem c4_promote_table :
    PieceKind.promote PieceKind.Pawn = some PieceKind.ProPawn ∧
    PieceKind.promote PieceKind.Lance = some PieceKind.ProLance ∧
    PieceKind.promote PieceKind.Knight = some PieceKind.ProKnight ∧
    PieceKind.promote PieceKind.Silver = some PieceKind.ProSilver ∧
    PieceKind.promote PieceKind.Bishop = some PieceKind.Horse ∧
    PieceKind.promote PieceKind.Rook = some PieceKind.Dragon ∧
    PieceKind.promote PieceKind.Gold = none ∧
    PieceKind.promote PieceKind.King = none ∧
    PieceKind.promote PieceKind.ProPawn = none ∧
    PieceKind.promote PieceKind.ProLance = none ∧
    PieceKind.promote PieceKind.ProKnight = none ∧
    PieceKind.promote PieceKind.ProSilver = none ∧
    PieceKind.promote PieceKind.Horse = none ∧
    PieceKind.promote PieceKind.Dragon = none ∧
    (∀ p : Piece, ∀ k : PieceKind, p.kind = some k →
      ((PieceKind.promote k = none ∧ p.promote = none) ∨
       (∃ k2 p2, PieceKind.promote k = some k2 ∧ p.promote = some p2 ∧
         p2.color = p.color ∧ p2.kind = some k2))) := by
  refine ⟨by decide, by decide, by decide, by decide, by decide, by decide, by decide,
    by decide, by decide, by decide, by decide, by decide, by decide, by decide, by decide⟩

/-- Witness for c4_promote_table at the black pawn. -/
theorem c4_promote_table_witness :
    (PieceKind.promote PieceKind.Pawn = none ∧ Piece.promote Piece.BPawn = none) ∨
    (∃ k2 p2, PieceKind.promote PieceKind.Pawn = some k2 ∧
      Piece.promote Piece.BPawn = some p2 ∧
      p2.color = Piece.color Piece.BPawn ∧ p2.kind = some k2) :=
  c4_promote_table.2.2.2.2.2.2.2.2.2.2.2.2.2.2 Piece.BPawn PieceKind.Pawn (by decide)

/-- C5: each fallible constructor fails exactly on out-of-range input
and otherwise returns the value with the matching encoding: from_coord
fails iff file or rank is at least 9; the PieceKind conversion fails
iff the value exceeds 13; the Piece conversion fails iff the value is
14, 15, or at least 30. -/
theorem c5_fallible_constructors :
    (∀ file rank : Nat,
      Square.from_coord file rank = Except.error KError.InvalidCoordinate ↔
        9 ≤ file ∨ 9 ≤ rank) ∧
    (∀ file rank : Nat, file < 9 → rank < 9 →
      Square.from_coord file rank = Except.ok ⟨file * 9 + rank⟩) ∧
    (∀ v : Nat, PieceKind.fromU8 v = Except.error KError.InvalidPieceKind ↔ 14 ≤ v) ∧
    (∀ v : Nat, v < 14 → ∃ k, PieceKind.fromU8 v = Except.ok k ∧ PieceKind.toU8 k = v) ∧
    (∀ v : Nat, Piece.fromU8 v = Except.error KError.InvalidPiece ↔
      (v = 14 ∨ v = 15 ∨ 30 ≤ v)) ∧
    (∀ v : Nat, (v < 14 ∨ (16 ≤ v ∧ v < 30)) →
      ∃ p, Piece.fromU8 v = Except.ok p ∧ Piece.toU8 p = v) := by
  refine ⟨?_, ?_, ?_, ?_, ?_, ?_⟩
  · intro file rank
    by_cases h : file < 9 ∧ rank < 9
    · simp only [Square.from_coord, if_pos h]
      constructor
      · intro he
        exact absurd he (by simp)
      · intro hge
        omega
    · simp only [Square.from_coord, if_neg h]
      constructor
      · intro _
        omega
      · intro _
        trivial
  · intro file rank hf hr
    simp [Square.from_coord, hf, hr]
  · intro v
    rcases Nat.lt_or_ge v 14 with h | h
    · interval_cases v <;> decide
    · obtain ⟨w, rfl⟩ : ∃ w, v = w + 14 := ⟨v - 14, by omega⟩
      have he : PieceKind.fromU8 (w + 14) = Except.error KError.InvalidPieceKind := rfl
      rw [he]
      simp only [true_iff]
      omega
  · intro v hv
    interval_cases v <;> decide
  · intro v
    rcases Nat.lt_or_ge v 30 with h | h
    · interval_cases v <;> decide
    · obtain ⟨w, rfl⟩ : ∃ w, v = w + 30 := ⟨v - 30, by omega⟩
      have he : Piece.fromU8 (w + 30) = Except.error KError.InvalidPiece := rfl
      rw [he]
      simp only [true_iff]
      omega
  · intro v hv
    have h30 : v < 30 := by omega
    interval_cases v <;> first
      | decide
      | omega

/-- Witness for c5_fallible_constructors at coordinate (3, 4), kind
value 5, and piece value 20. -/
theorem c5_fallible_constructors_witness :
    Square.from_coord 3 4 = Except.ok ⟨3 * 9 + 4⟩ ∧
    (∃ k, PieceKind.fromU8 5 = Except.ok k ∧ PieceKind.toU8 k = 5) ∧
    (∃ p, Piece.fromU8 20 = Except.ok p ∧ Piece.toU8 p = 20) :=
  ⟨c5_fallible_constructors.2.1 3 4 (by decide) (by decide),
   c5_fallible_constructors.2.2.2.1 5 (by decide),
   c5_fallible_constructors.2.2.2.2.2 20 (by decide)⟩

/-- C6: the rendering of any Bitboard is the concatenation, over ranks
0 to 8 in order, of a 9-character line for files 8 down to 0 holding
'1' exactly at member squares, each line closed by a line break; so the
output always has 90 characters, EMPTY renders as nine lines of nine
'0' characters and FULL as nine lines of nine '1' characters. -/
theorem c6_fmt_rendering :
    (∀ b : Bitboard, b.fmt = String.join ((List.range 9).map (fun rank =>
      String.mk (((List.range 9).reverse.map (fun file =>
        if b.mem (file * 9 + rank) then '1' else '0')) ++ ['\n'])))) ∧
    (∀ b : Bitboard, b.fmt.length = 90) ∧
    Bitboard.EMPTY.fmt =
      "000000000\n000000000\n000000000\n000000000\n000000000\n000000000\n000000000\n000000000\n000000000\n" ∧
    Bitboard.FULL.fmt =
      "111111111\n111111111\n111111111\n111111111\n111111111\n111111111\n111111111\n111111111\n111111111\n" :=
  ⟨fun _ => rfl, fun _ => rfl, by decide, by decide⟩

/-- C7: Piece.new round-trips the color and the kind, and is_black and
is_white are mutually exclusive and exhaustive. -/
theorem c7_piece_new_roundtrip :
    (∀ c : Color, ∀ k : PieceKind,
      ∃ p : Piece, Piece.new c k = some p ∧ p.kind = some k ∧ p.color = c) ∧
    (∀ p : Piece, (p.is_black = true ∨ p.is_white = true) ∧
      ¬(p.is_black = true ∧ p.is_white = true)) := by
  refine ⟨by decide, by decide⟩

/-- C8: EMPTY has no member, FULL has 81 members, and the singleton
board of every valid square has exactly one member whose position is
the square's index. -/
theorem c8_count_singleton :
    Bitboard.EMPTY.count = 0 ∧
    Bitboard.FULL.count = 81 ∧
    (∀ v : Nat, v < 81 →
      (Bitboard.ofSquare ⟨v⟩).count = 1 ∧
      (∀ j : Nat, ((Bitboard.ofSquare ⟨v⟩).mem j = true) ↔ j = Square.index ⟨v⟩)) := by
  refine ⟨by decide, by decide, ?_⟩
  have hcount : ∀ v : Nat, v < 81 → (Bitboard.ofSquare ⟨v⟩).count = 1 := by decide
  intro v hv
  exact ⟨hcount v hv, fun j => Bitboard.mem_ofSquare_iff v j hv⟩

/-- Witness for c8_count_singleton at index 40. -/
theorem c8_count_singleton_witness :
    (Bitboard.ofSquare ⟨40⟩).count = 1 ∧
    (((Bitboard.ofSquare ⟨40⟩).mem 40 = true) ↔ 40 = Square.index ⟨40⟩) :=
  ⟨(c8_count_singleton.2.2 40 (by decide)).1,
   (c8_count_singleton.2.2 40 (by decide)).2 40⟩

/-- C9: for every coordinate pair, from_coord succeeds and the
singleton board of the resulting square is the intersection of the
corresponding FILE and RANK masks. -/
theorem c9_singleton_eq_file_and_rank :
    ∀ file, file < 9 → ∀ rank, rank < 9 →
      Square.from_coord file rank = Except.ok ⟨file * 9 + rank⟩ ∧
      Bitboard.ofSquare ⟨file * 9 + rank⟩ =
        Bitboard.band (Bitboard.files.getD file Bitboard.EMPTY)
          (Bitboard.ranks.getD rank Bitboard.EMPTY) := by
  decide

/-- Witness for c9_singleton_eq_file_and_rank at file 3, rank 5. -/
theorem c9_singleton_eq_file_and_rank_witness :
    Square.from_coord 3 5 = Except.ok ⟨3 * 9 + 5⟩ ∧
    Bitboard.ofSquare ⟨3 * 9 + 5⟩ =
      Bitboard.band (Bitboard.files.getD 3 Bitboard.EMPTY)
        (Bitboard.ranks.getD 5 Bitboard.EMPTY) :=
  c9_singleton_eq_file_and_rank 3 (by decide) 5 (by decide)

/-- C10: the packed promotion-bit test on a Piece agrees with first
extracting the kind and testing the promotion bit there, for all 28
pieces. -/
theorem c10_is_promoted_consistent :
    ∀ p : Piece, ∃ k, p.kind = some k ∧ p.is_promoted = PieceKind.is_promoted k := by
  decide

/-- C1 counterexample: NOT applied to the interface value EMPTY yields
a Bitboard with bit 81 set, so the bits-81-and-above-are-zero invariant
does not extend to the NOT operator. -/
theorem c1_counterexample :
    (Bitboard.bnot Bitboard.EMPTY).val.testBit 81 = true := by
  decide

/-- C1 amended: the named constants, the singleton boards, and the
results of AND, OR, and XOR on values whose bits 81 and above are zero
again have bits 81 and above zero; NOT does not preserve this: it
complements all 128 bits, so on such a value every bit from 81 to 127
of the result is one. -/
theorem c1_high_bits_invariant :
    Bitboard.EMPTY.val < 2 ^ 81 ∧
    Bitboard.FULL.val < 2 ^ 81 ∧
    (∀ i, i < 9 → (Bitboard.files.getD i Bitboard.EMPTY).val < 2 ^ 81) ∧
    (∀ i, i < 9 → (Bitboard.ranks.getD i Bitboard.EMPTY).val < 2 ^ 81) ∧
    (∀ v, v < 81 → (Bitboard.ofSquare ⟨v⟩).val < 2 ^ 81) ∧
    (∀ a b : Bitboard, b.val < 2 ^ 81 → (Bitboard.band a b).val < 2 ^ 81) ∧
    (∀ a b : Bitboard, a.val < 2 ^ 81 → b.val < 2 ^ 81 →
      (Bitboard.bor a b).val < 2 ^ 81) ∧
    (∀ a b : Bitboard, a.val < 2 ^ 81 → b.val < 2 ^ 81 →
      (Bitboard.bxor a b).val < 2 ^ 81) ∧
    (∀ a : Bitboard, a.val < 2 ^ 81 → ∀ i, 81 ≤ i → i < 128 →
      (Bitboard.bnot a).val.testBit i = true) := by
  refine ⟨by decide, by decide, by decide, by decide, by decide, ?_, ?_, ?_, ?_⟩
  · intro a b hb
    exact Nat.and_lt_two_pow a.val hb
  · intro a b ha hb
    exact Nat.or_lt_two_pow ha hb
  · intro a b ha hb
    exact Nat.xor_lt_two_pow ha hb
  · intro a ha i h81 h128
    simp only [Bitboard.bnot, Nat.testBit_xor, Nat.testBit_two_pow_sub_one]
    have hx : a.val.testBit i = false :=
      Nat.testBit_lt_two_pow (lt_of_lt_of_le ha (Nat.pow_le_pow_right (by norm_num) h81))
    simp [hx, h128]

/-- Witness for c1_high_bits_invariant: the OR closure at FULL with
FULL and the NOT characterization at EMPTY, bit 100. -/
theorem c1_high_bits_invariant_witness :
    (Bitboard.bor Bitboard.FULL Bitboard.FULL).val < 2 ^ 81 ∧
    (Bitboard.bnot Bitboard.EMPTY).val.testBit 100 = true :=
  ⟨c1_high_bits_invariant.2.2.2.2.2.2.1 Bitboard.FULL Bitboard.FULL (by decide) (by decide),
   c1_high_bits_invariant.2.2.2.2.2.2.2.2 Bitboard.EMPTY (by decide) 100 (by decide) (by decide)⟩
